import Mathlib

/-!
Verification development for the nightlight astrophotography stacking pipeline.

The Go sources are shallowly embedded: float32 values are modelled as exact
rationals, Go nil pointers as Option, fatal errors and panics as Option or
Except results, and goroutine loops that fill fixed index slots as List.map.
Library routines that are not part of the provided sources (noise estimation,
histogram matching, triangle alignment, projection, color space conversion)
are kept abstract as explicit function parameters or records of functions, so
every theorem quantifies over their behavior.
-/

namespace Nightlight

/-- Model of a detected star: position, integrated mass and half flux radius. -/
structure Star where
  x : ℚ
  y : ℚ
  mass : ℚ
  hfr : ℚ
  deriving Repr, DecidableEq

/-- Model of a Go star slice: the list of stars together with the address of the
backing array, so that the object identity test in postProcessLight, which
compares the address of the first element of two slices, can be expressed. -/
structure StarList where
  addr : ℕ
  stars : List Star
  deriving Repr, DecidableEq

/-- Subset of the BasicStats record that the claims need: location, scale and
the noise estimate of the pixel data. -/
structure BasicStats where
  location : ℚ
  scale : ℚ
  noise : ℚ
  deriving Repr, DecidableEq

/-- Affine 2D transform with six parameters, as fitted by the aligner. -/
structure Transform2D where
  a : ℚ
  b : ℚ
  c : ℚ
  d : ℚ
  e : ℚ
  f : ℚ
  deriving Repr, DecidableEq

/-- Modelled from the spec: IdentityTransform2D lives in the star alignment file
that is not part of the provided sources; the spec fixes it as the identity
2 by 3 affine transform. -/
def identityTransform2D : Transform2D := ⟨1, 0, 0, 0, 1, 0⟩

/-- Model of the FITSImage record with the fields the claims touch. The pixel
buffer itself is kept abstract; per frame quantities derived from it
(statistics, star detections, mean half flux radius) are carried as fields. -/
structure FITSImage where
  id : ℤ
  naxisn : List ℤ
  exposure : ℚ
  stats : BasicStats
  stars : StarList
  hfr : ℚ
  trans : Transform2D
  residual : ℚ
  deriving Repr, DecidableEq

/-! ## Batch scheduler (batch.go, PrepareBatches) -/

/-- Available frame count computed by PrepareBatches: the memory budget in MiB
divided by the bytes per frame, four bytes per pixel of a width by height
frame, rounding down. -/
def availableFrames (stMemory width height : ℤ) : ℤ :=
  (stMemory * 1024 * 1024) / (width * height * 4)

/-- Search loop of PrepareBatches over decreasing parallelism p. For each p the
tentative batch size is availableFrames minus p minus one slot for the dark and
one for the flat when present; sizes below two are skipped; the batch count is
the ceiling of numFrames over that size; with more than one batch two more
frames are reserved (reference frame and stack of stacks) without recomputing
the batch count; the first p whose final size is at least two and at least p is
accepted. Returns parallelism, batch size and batch count, or none when the
search fails, which the code reports as a fatal error. -/
def searchBatchSize (numFrames avail darkSlots flatSlots : ℤ) : ℕ → Option (ℤ × ℤ × ℤ)
  | 0 => none
  | p + 1 =>
    let pz : ℤ := (p : ℤ) + 1
    let bs0 := avail - pz - darkSlots - flatSlots
    if bs0 < 2 then searchBatchSize numFrames avail darkSlots flatSlots p
    else
      let nb := (numFrames + bs0 - 1) / bs0
      let bs1 := if nb > 1 then bs0 - 2 else bs0
      if bs1 < 2 then searchBatchSize numFrames avail darkSlots flatSlots p
      else if bs1 < pz then searchBatchSize numFrames avail darkSlots flatSlots p
      else some (pz, bs1, nb)

/-- Final batch equalization loop of PrepareBatches: decrement the batch size
while one less per batch still covers all frames. The fuel argument makes the
recursion structural; the callers pass the batch size itself as fuel, which is
enough whenever at least one frame is present. -/
def equalizeBatchSize (numFrames numBatches : ℤ) : ℕ → ℤ → ℤ
  | 0, bs => bs
  | fuel + 1, bs =>
    if (bs - 1) * numBatches ≥ numFrames then
      equalizeBatchSize numFrames numBatches fuel (bs - 1)
    else bs

/-- Numeric core of PrepareBatches: compute the frame budget, search for a
parallelism and batch size, fail with none when no execution path fits the
memory constraints, then equalize the size of the final batch. -/
def prepareBatchesNumeric (numFrames stMemory width height : ℤ)
    (hasDark hasFlat : Bool) (cpuCount : ℕ) : Option (ℤ × ℤ × ℤ) :=
  let avail := availableFrames stMemory width height
  match searchBatchSize numFrames avail (if hasDark then 1 else 0)
      (if hasFlat then 1 else 0) cpuCount with
  | none => none
  | some (p, bs, nb) => some (p, equalizeBatchSize numFrames nb bs.toNat bs, nb)

/-- Insert a natural number into an ascending list, keeping it sorted. -/
def insertAsc (x : ℕ) : List ℕ → List ℕ
  | [] => [x]
  | y :: ys => if x ≤ y then x :: y :: ys else y :: insertAsc x ys

/-- Insertion sort into ascending order, modelling the sort.Ints call on one
batch slice of the permutation. -/
def sortAsc (xs : List ℕ) : List ℕ := xs.foldr insertAsc []

/-- Sort each of the first numBatches consecutive blocks of size batchSize of
the permutation in place, leaving any tail beyond those blocks untouched, as
the loop over batches in PrepareBatches does. -/
def sortBlocks (numBatches batchSize : ℕ) (perm : List ℕ) : List ℕ :=
  match numBatches with
  | 0 => perm
  | nb + 1 => sortAsc (perm.take batchSize) ++ sortBlocks nb batchSize (perm.drop batchSize)

/-- Permutation and file list portion of PrepareBatches. With a single batch the
identity permutation and the unchanged file list are returned. With more than
one batch the given random permutation is sorted ascending within each batch
slice; the shuffled file list is then built into a fresh variable declared with
a short variable declaration inside the if block, which shadows the parameter,
so the value returned to the caller is still the original file list. -/
def prepareBatchesShuffle (fileNames : List String) (numBatches batchSize : ℕ)
    (randPerm : List ℕ) : List ℕ × List String :=
  if numBatches > 1 then
    let perm := sortBlocks numBatches batchSize randPerm
    let _shadowed := perm.map (fun i => fileNames.getD i "")
    (perm, fileNames)
  else
    (List.range fileNames.length, fileNames)

/-- Claim C2: the claim states that with more than one batch the returned file
list satisfies shuffledFileNames i equals fileNames of ids i. The code builds
that list into a shadowed local variable and returns the original list instead.
With four files in two batches of two and random permutation 2 0 3 1, the ids
come back block sorted as 0 2 1 3 but the file list is returned unchanged, so
at index one the returned entry differs from the entry selected by the ids. -/
theorem prepareBatches_shuffle_discarded :
    (prepareBatchesShuffle ["a", "b", "c", "d"] 2 2 [2, 0, 3, 1]).1 = [0, 2, 1, 3] ∧
    (prepareBatchesShuffle ["a", "b", "c", "d"] 2 2 [2, 0, 3, 1]).2 = ["a", "b", "c", "d"] ∧
    ¬ ((prepareBatchesShuffle ["a", "b", "c", "d"] 2 2 [2, 0, 3, 1]).2.getD 1 "" =
        (["a", "b", "c", "d"] : List String).getD
          ((prepareBatchesShuffle ["a", "b", "c", "d"] 2 2 [2, 0, 3, 1]).1.getD 1 0) "") := by
  decide

/-- Claim C3: the claim states that on success the outputs satisfy batchSize
times numBatches at least numFrames. With ten frames of 1024 by 1024 pixels, a
36 MiB budget (nine frames fit), four CPU threads and no calibration frames,
the search settles at parallelism three with a tentative size six and batch
count two, then reserves two frames without recomputing the batch count,
returning batch size four and two batches: a capacity of eight frames for ten
input frames, so two frames are silently dropped by the batch loop. -/
theorem prepareBatches_capacity_shortfall :
    prepareBatchesNumeric 10 36 1024 1024 false false 4 = some (3, 4, 2) ∧
    ((4 : ℤ) * 2 < 10) := by
  decide

/-! ## Preprocessing result slots and the stackBatch noise loop
(preprocess.go PreProcessLights, cmdstack.go stackBatch) -/

/-- Result slots of PreProcessLights: each frame is preprocessed independently
and stored into its fixed index slot on success; on failure the slot keeps its
nil zero value. One abstract per frame outcome stands for PreProcessLight. -/
def preProcessLightsSlots (results : List (Except String FITSImage)) :
    List (Option FITSImage) :=
  results.map (fun r => match r with | .ok l => some l | .error _ => none)

/-- Log lines produced by PreProcessLights for failing frames: each failure is
logged with its frame id and the error message; successes log nothing here. -/
def preProcessLightsLog (ids : List ℤ) (results : List (Except String FITSImage)) :
    List (ℤ × String) :=
  (ids.zip results).filterMap
    (fun p => match p.2 with | .ok _ => none | .error e => some (p.1, e))

/-- Noise summation loop at the start of stackBatch: it ranges over every slot
of the lights array, including nil slots of frames that failed preprocessing,
and dereferences the statistics of each entry. Reaching a nil slot is a nil
pointer dereference, which panics the Go program, modelled as none. -/
def sumNoise : List (Option FITSImage) → Option ℚ
  | [] => some 0
  | none :: _ => none
  | some l :: rest => (sumNoise rest).map (fun s => l.stats.noise + s)

/-- Average input frame noise computed by stackBatch right after preprocessing,
before nil slots are removed: the sum over all slots divided by the slot count;
none when the sum panicked on a nil slot. -/
def stackBatchAvgNoise (lights : List (Option FITSImage)) : Option ℚ :=
  (sumNoise lights).map (fun s => s / (lights.length : ℚ))

/-- Example frame used to instantiate concrete scenarios. -/
def sampleFrame (i : ℤ) (noise : ℚ) : FITSImage :=
  { id := i
    naxisn := [4, 4]
    exposure := 10
    stats := { location := 1/10, scale := 1/100, noise := noise }
    stars := { addr := 100, stars := [] }
    hfr := 0
    trans := identityTransform2D
    residual := 0 }

/-- Claim C1: the claim states that when at least one frame fails preprocessing
and at least one survives, the failure is logged with the frame id, the slot
stays nil, and stackBatch completes its average noise computation and stacks
the survivors. The first two parts hold, but the average noise loop of
stackBatch runs before nil slots are removed and dereferences the statistics of
every slot, so one failed frame next to one survivor panics the program. -/
theorem stackBatch_nil_frame_panics :
    preProcessLightsSlots [.error "open file.fits: no such file",
        .ok (sampleFrame 8 (1/50))] = [none, some (sampleFrame 8 (1/50))] ∧
    preProcessLightsLog [7, 8] [.error "open file.fits: no such file",
        .ok (sampleFrame 8 (1/50))] = [(7, "open file.fits: no such file")] ∧
    stackBatchAvgNoise [none, some (sampleFrame 8 (1/50))] = none :=
  ⟨rfl, rfl, rfl⟩

/-! ## Postprocessing (part_003: PostProcessLights, postProcessLight) -/

/-- Histogram normalization modes of the postprocessing step. -/
inductive HistoNormMode where
  | hnmNone
  | locScale
  | locBlack
  | autoMode
  deriving Repr, DecidableEq

/-- Replacement modes for out of bounds values when projecting images. -/
inductive OutOfBoundsMode where
  | oobNaN
  | oobRefLocation
  | oobOwnLocation
  deriving Repr, DecidableEq

/-- Parameters for postprocessing subexposures. -/
structure PostProcessParams where
  align : ℤ
  alignK : ℤ
  alignThresh : ℚ
  normHist : HistoNormMode
  oobMode : OutOfBoundsMode
  usmSigma : ℚ
  usmGain : ℚ
  usmThresh : ℚ
  deriving Repr, DecidableEq

/-- Aligner state: reference frame axes and reference star list. -/
structure Aligner where
  naxisn : List ℤ
  refStars : StarList
  k : ℤ
  deriving Repr, DecidableEq

/-- Modelled from the spec: the operations called by postProcessLight and
stackBatch whose implementations are not among the provided source files
(histogram matching, black point shift, extended statistics, triangle
alignment, projection, unsharp masking, noise estimation). They are kept as an
abstract record of total functions; the spec describes no failure modes for
them. The align function returns the fitted transform and the RMS residual. -/
structure PostOps where
  matchHistogram : FITSImage → BasicStats → FITSImage
  shiftBlackToMove : FITSImage → ℚ → ℚ → FITSImage
  calcExtendedStats : FITSImage → BasicStats
  align : List ℤ → StarList → ℤ → Transform2D × ℚ
  project : FITSImage → List ℤ → Transform2D → Option ℚ → FITSImage
  unsharpMask : FITSImage → FITSImage
  estimateNoise : FITSImage → ℚ

/-- Histogram normalization switch at the top of postProcessLight: none does
nothing, location and scale matches the reference statistics, black point shift
moves the location to the reference location and recomputes statistics, and the
auto mode value is resolved by the commands before this point so it falls
through unchanged. -/
def ppNormalize (ops : PostOps) (histoRef light0 : FITSImage)
    (p : PostProcessParams) : FITSImage :=
  match p.normHist with
  | .hnmNone => light0
  | .locScale => ops.matchHistogram light0 histoRef.stats
  | .locBlack =>
      let l1 := ops.shiftBlackToMove light0 light0.stats.location histoRef.stats.location
      { l1 with stats := ops.calcExtendedStats l1 }
  | .autoMode => light0

/-- Shallow embedding of postProcessLight: after histogram normalization, the
frame gets the identity transform when there is no aligner or the aligner has
no reference stars; when the frame is the reference itself, detected by equal
star count and equal backing address of the star slices; or when the frame has
no stars at all. Otherwise the aligner is invoked; a residual above the
threshold rejects the frame with an error, else transform and residual are
recorded and the frame is projected into the reference grid with the chosen
out of bounds fill. A final optional unsharp masking step follows. -/
def postProcessLight (ops : PostOps) (aligner : Option Aligner)
    (histoRef light0 : FITSImage) (p : PostProcessParams) :
    Except String FITSImage :=
  let light := ppNormalize ops histoRef light0 p
  let aligned : Except String FITSImage :=
    match aligner with
    | none => .ok { light with trans := identityTransform2D }
    | some al =>
      if al.refStars.stars.length = 0 then
        .ok { light with trans := identityTransform2D }
      else if al.refStars.stars.length = light.stars.stars.length ∧
          al.refStars.addr = light.stars.addr then
        .ok { light with trans := identityTransform2D }
      else if light.stars.stars.length = 0 then
        .ok { light with trans := identityTransform2D }
      else
        let oob : Option ℚ :=
          match p.oobMode with
          | .oobNaN => none
          | .oobRefLocation => some histoRef.stats.location
          | .oobOwnLocation => some light.stats.location
        let tr := ops.align light.naxisn light.stars light.id
        if tr.2 > p.alignThresh then .error "residual above limit"
        else .ok (ops.project { light with trans := tr.1, residual := tr.2 } al.naxisn tr.1 oob)
  match aligned with
  | .error e => .error e
  | .ok l2 => if p.usmGain > 0 then .ok (ops.unsharpMask l2) else .ok l2

/-- Store back loop of PostProcessLights: every frame is postprocessed
independently; a successful result replaces the slot and a failing frame sets
its slot to nil, since the nil result differs from the input pointer. -/
def postProcessLights (ops : PostOps) (aligner : Option Aligner)
    (histoRef : FITSImage) (p : PostProcessParams) (lights : List FITSImage) :
    List (Option FITSImage) :=
  lights.map (fun l => (postProcessLight ops aligner histoRef l p).toOption)

/-- Nil removal loop of stackBatch: compact the lights array by keeping the non
nil entries in order before stacking. -/
def removeNils : List (Option FITSImage) → List FITSImage
  | [] => []
  | none :: rest => removeNils rest
  | some l :: rest => l :: removeNils rest

theorem removeNils_eq_filterMap (xs : List (Option FITSImage)) :
    removeNils xs = xs.filterMap id := by
  induction xs with
  | nil => rfl
  | cons h t ih => cases h <;> simp [removeNils, ih]

/-- Claim C4: for a frame that actually goes through alignment (aligner present
with stars, frame not the reference, frame has stars), postProcessLight fails
exactly when the residual returned by the aligner exceeds the threshold; a
failing frame occupies a nil slot, and the nil removal loop of stackBatch keeps
exactly the successful frames in order, so a frame rejected for its residual
never enters the per pixel stack. -/
theorem postProcess_residual_threshold (ops : PostOps) (al : Aligner)
    (histoRef light : FITSImage) (p : PostProcessParams) (lights : List FITSImage)
    (h1 : al.refStars.stars.length ≠ 0)
    (h2 : ¬ (al.refStars.stars.length = (ppNormalize ops histoRef light p).stars.stars.length ∧
        al.refStars.addr = (ppNormalize ops histoRef light p).stars.addr))
    (h3 : (ppNormalize ops histoRef light p).stars.stars.length ≠ 0) :
    ((postProcessLight ops (some al) histoRef light p).toOption = none ↔
      (ops.align (ppNormalize ops histoRef light p).naxisn
          (ppNormalize ops histoRef light p).stars
          (ppNormalize ops histoRef light p).id).2 > p.alignThresh) ∧
    removeNils (postProcessLights ops (some al) histoRef p lights) =
      lights.filterMap (fun l => (postProcessLight ops (some al) histoRef l p).toOption) := by
  constructor
  · simp only [postProcessLight, if_neg h1, if_neg h2, if_neg h3]
    by_cases hres : (ops.align (ppNormalize ops histoRef light p).naxisn
        (ppNormalize ops histoRef light p).stars
        (ppNormalize ops histoRef light p).id).2 > p.alignThresh
    · simp [hres, Except.toOption]
    · by_cases husm : p.usmGain > 0 <;> simp [hres, husm, Except.toOption]
  · rw [removeNils_eq_filterMap, postProcessLights, List.filterMap_map]
    rfl

/-- Example star for concrete scenarios. -/
def exStar : Star := ⟨1, 2, 50, 3/2⟩

/-- Reference star list with three stars at backing address 0. -/
def exRefStars : StarList := ⟨0, [exStar, exStar, exStar]⟩

/-- Star list with two stars at a different backing address. -/
def exStars2 : StarList := ⟨64, [exStar, exStar]⟩

/-- Example aligner over an 8 by 8 reference grid. -/
def exAligner : Aligner := ⟨[8, 8], exRefStars, 20⟩

/-- Example light frame with two detected stars. -/
def exLight2 : FITSImage :=
  { id := 3
    naxisn := [8, 8]
    exposure := 10
    stats := { location := 1/10, scale := 1/100, noise := 1/50 }
    stars := exStars2
    hfr := 3/2
    trans := identityTransform2D
    residual := 0 }

/-- Example light frame with no detected stars. -/
def exLight0 : FITSImage := { exLight2 with id := 4, stars := ⟨65, []⟩ }

/-- Example reference frame carrying the reference star list. -/
def exRefFrame : FITSImage := { exLight2 with id := 0, stars := exRefStars }

/-- Example postprocessing parameters: alignment on, threshold one, no
histogram normalization, NaN out of bounds fill, no unsharp masking. -/
def exParams : PostProcessParams :=
  { align := 1, alignK := 20, alignThresh := 1, normHist := .hnmNone,
    oobMode := .oobNaN, usmSigma := 1, usmGain := 0, usmThresh := 1 }

/-- Concrete operations whose aligner reports residual two, above the example
threshold of one. -/
def exOpsReject : PostOps :=
  { matchHistogram := fun l _ => l
    shiftBlackToMove := fun l _ _ => l
    calcExtendedStats := fun l => l.stats
    align := fun _ _ _ => (identityTransform2D, 2)
    project := fun l _ _ _ => l
    unsharpMask := fun l => l
    estimateNoise := fun l => l.stats.noise }

/-- Nontrivial affine transform: a translation by 5 and 7. -/
def exShiftTrans : Transform2D := ⟨1, 0, 5, 0, 1, 7⟩

/-- Concrete operations whose aligner reports the translation transform with
residual zero. -/
def exOpsShift : PostOps := { exOpsReject with align := fun _ _ _ => (exShiftTrans, 0) }

/-- Witness for the residual threshold theorem at a concrete rejecting input. -/
theorem postProcess_residual_threshold_witness :
    ((postProcessLight exOpsReject (some exAligner) exRefFrame exLight2 exParams).toOption = none ↔
      (exOpsReject.align (ppNormalize exOpsReject exRefFrame exLight2 exParams).naxisn
          (ppNormalize exOpsReject exRefFrame exLight2 exParams).stars
          (ppNormalize exOpsReject exRefFrame exLight2 exParams).id).2 > exParams.alignThresh) ∧
    removeNils (postProcessLights exOpsReject (some exAligner) exRefFrame exParams [exLight2]) =
      [exLight2].filterMap
        (fun l => (postProcessLight exOpsReject (some exAligner) exRefFrame l exParams).toOption) :=
  postProcess_residual_threshold exOpsReject exAligner exRefFrame exLight2 exParams [exLight2]
    (by decide) (by decide) (by decide)

/-- Claim C5 counterexample: the claim states that every frame with fewer than
three detected stars is given the identity transform and skips alignment. The
code only skips alignment for an empty star list: this frame has two stars and
is sent to the aligner, coming back with the nontrivial transform the aligner
fitted, not the identity. -/
theorem postProcess_two_star_frame_aligned :
    exLight2.stars.stars.length < 3 ∧
    postProcessLight exOpsShift (some exAligner) exRefFrame exLight2 exParams =
      .ok { exLight2 with trans := exShiftTrans, residual := 0 } ∧
    exShiftTrans ≠ identityTransform2D :=
  ⟨by decide, rfl, by simp [exShiftTrans, identityTransform2D]⟩

/-- Claim C5 as amended: with an aligner whose reference star list is nonempty
and unsharp masking off, a frame whose star list is empty after normalization
is given the identity transform and skips alignment, and a frame that is the
reference itself, detected by equal star count and equal backing address of the
star slices, also skips alignment with the identity transform; in both cases
the result does not depend on the align or project operations. Frames with one
or two stars, however, are still passed to the aligner. -/
theorem postProcess_skip_zero_stars_and_reference (ops : PostOps) (al : Aligner)
    (histoRef light : FITSImage) (p : PostProcessParams)
    (h1 : al.refStars.stars.length ≠ 0) (h4 : ¬ p.usmGain > 0) :
    ((ppNormalize ops histoRef light p).stars.stars.length = 0 →
      postProcessLight ops (some al) histoRef light p =
        .ok { ppNormalize ops histoRef light p with trans := identityTransform2D }) ∧
    (al.refStars.stars.length = (ppNormalize ops histoRef light p).stars.stars.length ∧
        al.refStars.addr = (ppNormalize ops histoRef light p).stars.addr →
      postProcessLight ops (some al) histoRef light p =
        .ok { ppNormalize ops histoRef light p with trans := identityTransform2D }) := by
  constructor
  · intro h0
    have h2 : ¬ (al.refStars.stars.length =
        (ppNormalize ops histoRef light p).stars.stars.length ∧
        al.refStars.addr = (ppNormalize ops histoRef light p).stars.addr) := by
      rintro ⟨ha, _⟩
      exact h1 (ha.trans h0)
    simp only [postProcessLight, if_neg h1, if_neg h2, if_pos h0, if_neg h4]
  · intro h2
    simp only [postProcessLight, if_neg h1, if_pos h2, if_neg h4]

/-- Witness for the amended skip theorem: the zero star frame and the reference
frame itself both come back with the identity transform. -/
theorem postProcess_skip_zero_stars_witness :
    ((ppNormalize exOpsShift exRefFrame exLight0 exParams).stars.stars.length = 0 →
      postProcessLight exOpsShift (some exAligner) exRefFrame exLight0 exParams =
        .ok { ppNormalize exOpsShift exRefFrame exLight0 exParams with
              trans := identityTransform2D }) ∧
    (exAligner.refStars.stars.length =
        (ppNormalize exOpsShift exRefFrame exLight0 exParams).stars.stars.length ∧
      exAligner.refStars.addr = (ppNormalize exOpsShift exRefFrame exLight0 exParams).stars.addr →
      postProcessLight exOpsShift (some exAligner) exRefFrame exLight0 exParams =
        .ok { ppNormalize exOpsShift exRefFrame exLight0 exParams with
              trans := identityTransform2D }) :=
  postProcess_skip_zero_stars_and_reference exOpsShift exAligner exRefFrame exLight0 exParams
    (by decide) (by norm_num [exParams])

/-! ## Stacking weights (cmdstack.go stackBatch, weight preparation) -/

/-- Largest finite float32 value, used by the code as the initial accumulator
of the minimum and maximum noise scans. Equal to (2 to the 24 minus 1) times 2
to the 104. -/
def maxFloat32 : ℚ := 340282346638528859811704183484516925440

/-- Weight preparation step of stackBatch. Weighted one is exposure weighting:
a frame without exposure information is a fatal error, otherwise the weights
are the exposures. Weighted two is noise weighting: the minimum and maximum
are scanned over the noise values recorded in the frame statistics, and then
each weight is computed from a freshly recomputed noise estimate of the frame
data against that previously recorded minimum and maximum. Any other value
leaves the weights nil. -/
def stackBatchWeights (ops : PostOps) (weighted : ℤ) (lights : List FITSImage) :
    Except String (Option (List ℚ)) :=
  if weighted = 1 then
    if lights.any (fun l => decide (l.exposure = 0)) then
      .error "missing exposure information for exposure weighted stacking"
    else .ok (some (lights.map (fun l => l.exposure)))
  else if weighted = 2 then
    let minNoise := lights.foldl (fun m l => min m l.stats.noise) maxFloat32
    let maxNoise := lights.foldl (fun m l => max m l.stats.noise) (-maxFloat32)
    .ok (some (lights.map (fun l =>
      1 / (1 + 4 * (ops.estimateNoise l - minNoise) / (maxNoise - minNoise)))))
  else .ok none

/-- Weight formula as stated by claim C6: one over one plus four times the
distance of the frame noise estimate from the minimum, normalized by the spread,
with minimum and maximum taken over the same list of frame noise estimates. -/
def claimNoiseWeight (noises : List ℚ) (n : ℚ) : ℚ :=
  match noises with
  | [] => 0
  | h :: t => 1 / (1 + 4 * (n - t.foldl min h) / (t.foldl max h - t.foldl min h))

/-- Concrete operations whose fresh noise estimate is one above the recorded
statistics noise, standing for data whose noise grew after normalization. -/
def exOpsFresh : PostOps := { exOpsReject with estimateNoise := fun l => l.stats.noise + 1 }

/-- Concrete operations whose fresh noise estimate equals the recorded noise. -/
def exOpsId : PostOps := exOpsReject

/-- Claim C6 counterexample: the claim states that with noise weighting every
weight is computed from a single notion of frame noise estimate. The code scans
the minimum and maximum over the noise values recorded before stacking, then
recomputes each frame noise from the pixel data: with recorded noises 1 and 3
and fresh estimates 2 and 4, the first frame gets weight one third, while the
claimed formula applied to the frame noise estimates 2 and 4 gives weight one,
so the claim fails at this input. -/
theorem stackBatch_noise_weights_stale_minmax :
    stackBatchWeights exOpsFresh 2 [sampleFrame 0 1, sampleFrame 1 3] =
      .ok (some [1/3, 1/7]) ∧
    claimNoiseWeight [exOpsFresh.estimateNoise (sampleFrame 0 1),
        exOpsFresh.estimateNoise (sampleFrame 1 3)]
      (exOpsFresh.estimateNoise (sampleFrame 0 1)) = 1 ∧
    (1 : ℚ) / 3 ≠ 1 := by
  refine ⟨?_, ?_, by norm_num⟩
  · norm_num [stackBatchWeights, exOpsFresh, exOpsReject, sampleFrame, maxFloat32,
      min_def, max_def]
  · norm_num [claimNoiseWeight, exOpsFresh, exOpsReject, sampleFrame, min_def, max_def]

/-- Claim C6 as amended: with Weighted one the command fails fatally when some
frame has exposure zero and otherwise uses the exposures as weights. With
Weighted two the weight of each frame is one over one plus four times the
normalized distance of its freshly recomputed noise estimate from the minimum,
where minimum and maximum are taken over the noise values recorded in the frame
statistics before stacking; in particular, when the recorded noise of every
frame agrees with the fresh estimate and stays within float range, the formula
of the claim holds with the common noise values. -/
theorem stackBatch_weights_formula (ops : PostOps) (lights : List FITSImage) :
    ((∃ l ∈ lights, l.exposure = 0) →
      ∃ e, stackBatchWeights ops 1 lights = .error e) ∧
    ((∀ l ∈ lights, l.exposure ≠ 0) →
      stackBatchWeights ops 1 lights = .ok (some (lights.map (fun l => l.exposure)))) ∧
    (stackBatchWeights ops 2 lights = .ok (some (lights.map (fun l =>
      1 / (1 + 4 * (ops.estimateNoise l -
            lights.foldl (fun m x => min m x.stats.noise) maxFloat32) /
          (lights.foldl (fun m x => max m x.stats.noise) (-maxFloat32) -
            lights.foldl (fun m x => min m x.stats.noise) maxFloat32)))))) ∧
    (∀ h0 : FITSImage, ∀ t : List FITSImage, lights = h0 :: t →
      (∀ l ∈ lights, ops.estimateNoise l = l.stats.noise) →
      (∀ l ∈ lights, l.stats.noise ≤ maxFloat32 ∧ -maxFloat32 ≤ l.stats.noise) →
      stackBatchWeights ops 2 lights = .ok (some (lights.map (fun l =>
        claimNoiseWeight (lights.map (fun x => x.stats.noise)) l.stats.noise)))) := by
  refine ⟨?_, ?_, ?_, ?_⟩
  · rintro ⟨l, hl, hz⟩
    refine ⟨"missing exposure information for exposure weighted stacking", ?_⟩
    have hany : lights.any (fun l => decide (l.exposure = 0)) = true := by
      simp only [List.any_eq_true, decide_eq_true_eq]
      exact ⟨l, hl, hz⟩
    simp [stackBatchWeights, hany]
  · intro hnz
    have hany : lights.any (fun l => decide (l.exposure = 0)) = false := by
      simp only [List.any_eq_false, decide_eq_true_eq]
      exact hnz
    simp [stackBatchWeights, hany]
  · simp [stackBatchWeights]
  · rintro h0 t rfl hcur hbound
    have hminit : min maxFloat32 h0.stats.noise = h0.stats.noise :=
      min_eq_right (hbound h0 (List.mem_cons_self h0 t)).1
    have hmaxit : max (-maxFloat32) h0.stats.noise = h0.stats.noise :=
      max_eq_right (hbound h0 (List.mem_cons_self h0 t)).2
    have hmin : (h0 :: t).foldl (fun m x => min m x.stats.noise) maxFloat32 =
        (t.map (fun x => x.stats.noise)).foldl min h0.stats.noise := by
      rw [List.foldl_cons, hminit, List.foldl_map]
    have hmax : (h0 :: t).foldl (fun m x => max m x.stats.noise) (-maxFloat32) =
        (t.map (fun x => x.stats.noise)).foldl max h0.stats.noise := by
      rw [List.foldl_cons, hmaxit, List.foldl_map]
    have hgen : stackBatchWeights ops 2 (h0 :: t) =
        .ok (some ((h0 :: t).map (fun l =>
          1 / (1 + 4 * (ops.estimateNoise l -
                (h0 :: t).foldl (fun m x => min m x.stats.noise) maxFloat32) /
              ((h0 :: t).foldl (fun m x => max m x.stats.noise) (-maxFloat32) -
                (h0 :: t).foldl (fun m x => min m x.stats.noise) maxFloat32))))) := by
      rfl
    rw [hgen]
    simp only [hmin, hmax]
    congr 1
    congr 1
    refine List.map_congr_left ?_
    intro l hl
    rw [hcur l hl]
    simp only [List.map_cons, claimNoiseWeight]

/-- Witness for the amended weight theorem: one frame with exposure ten gives
weight ten, and two frames with current noise estimates give the claimed
formula values. -/
theorem stackBatch_weights_formula_witness :
    stackBatchWeights exOpsId 1 [sampleFrame 0 1] = .ok (some [10]) ∧
    stackBatchWeights exOpsId 2 [sampleFrame 0 1, sampleFrame 1 3] =
      .ok (some [claimNoiseWeight [1, 3] 1, claimNoiseWeight [1, 3] 3]) := by
  constructor
  · have h := (stackBatch_weights_formula exOpsId [sampleFrame 0 1]).2.1 (by
      intro l hl
      simp only [List.mem_singleton] at hl
      subst hl
      norm_num [sampleFrame])
    exact h.trans (by rfl)
  · have h := (stackBatch_weights_formula exOpsId
        [sampleFrame 0 1, sampleFrame 1 3]).2.2.2 (sampleFrame 0 1) [sampleFrame 1 3] rfl
      (by intro l hl; rfl)
      (by
        intro l hl
        simp only [List.mem_cons, List.mem_singleton] at hl
        rcases hl with h | h | h
        · subst h; constructor <;> norm_num [sampleFrame, maxFloat32]
        · subst h; constructor <;> norm_num [sampleFrame, maxFloat32]
        · cases h)
    exact h.trans (by rfl)

/-! ## Automatic tone curve loop (cmdserve.go EnhanceToneCurve) -/

/-- Action chosen by one iteration of the automatic curves loop. -/
inductive ToneAction where
  | applyGammaAct (g : ℚ)
  | shiftBlackAct (loc target : ℚ)
  | stopConverged
  deriving Repr, DecidableEq

/-- Branch logic of one iteration of the automatic curves loop. The logarithm
is the Go math.Log library routine, passed in abstractly. When the location is
at most 1.01 times the target and the scale below the target scale, the ideal
gamma is the log ratio, clamped to 1.5 from above; a clamped gamma of at most
1.01 stops the loop, else it is applied. Otherwise, a location above 0.99 times
the target with scale below target shifts the black point; otherwise stop. -/
def autoCurveStep (logF : ℚ → ℚ) (targetLoc targetScale loc scale : ℚ) : ToneAction :=
  if loc ≤ targetLoc * (101/100) ∧ scale < targetScale then
    let ideal0 := logF ((targetLoc / targetScale) * scale) / logF targetLoc
    let ideal := if ideal0 > 3/2 then 3/2 else ideal0
    if ideal ≤ 101/100 then .stopConverged
    else .applyGammaAct ideal
  else if loc > targetLoc * (99/100) ∧ scale < targetScale then .shiftBlackAct loc targetLoc
  else .stopConverged

/-- Image level operations used by the loop body, abstract over the state type:
luminance location and scale estimation, gamma application and black point
shift on channel two of the xyY data. -/
structure ToneOps (S : Type) where
  lumLocScale : S → ℚ × ℚ
  applyGamma : S → ℚ → S
  shiftBlack : S → ℚ → ℚ → S

/-- Iteration structure of the automatic curves loop: the counter starts at
zero and the loop warns and stops when it reaches 30. The extra fuel argument
makes the recursion structural; a fuel of at least 31 minus the counter never
runs out. Returns the final state, the final counter, and true when the loop
stopped by convergence rather than by the iteration cap. -/
def autoCurveLoopAux {S : Type} (logF : ℚ → ℚ) (ops : ToneOps S)
    (targetLoc targetScale : ℚ) : ℕ → ℕ → S → S × ℕ × Bool
  | 0, i, s => (s, i, false)
  | fuel + 1, i, s =>
    if i = 30 then (s, i, false)
    else
      let ls := ops.lumLocScale s
      match autoCurveStep logF targetLoc targetScale ls.1 ls.2 with
      | .stopConverged => (s, i, true)
      | .applyGammaAct g =>
          autoCurveLoopAux logF ops targetLoc targetScale fuel (i + 1) (ops.applyGamma s g)
      | .shiftBlackAct l t =>
          autoCurveLoopAux logF ops targetLoc targetScale fuel (i + 1) (ops.shiftBlack s l t)

/-- Automatic curves adjustment of EnhanceToneCurve, starting at iteration zero
with enough fuel for the 30 iteration cap. -/
def enhanceToneCurveAuto {S : Type} (logF : ℚ → ℚ) (ops : ToneOps S)
    (targetLoc targetScale : ℚ) (s : S) : S × ℕ × Bool :=
  autoCurveLoopAux logF ops targetLoc targetScale 31 0 s

theorem clampGamma_eq_min (x c : ℚ) : (if x > c then c else x) = min x c := by
  rw [min_def]
  split_ifs with h1 h2 <;> first | rfl | linarith

theorem autoCurveLoopAux_counter_le {S : Type} (logF : ℚ → ℚ) (ops : ToneOps S)
    (targetLoc targetScale : ℚ) :
    ∀ fuel i s, i ≤ 30 →
      (autoCurveLoopAux logF ops targetLoc targetScale fuel i s).2.1 ≤ 30 := by
  intro fuel
  induction fuel with
  | zero => intro i s hi; exact hi
  | succ f ih =>
    intro i s hi
    by_cases h30 : i = 30
    · simp [autoCurveLoopAux, h30]
    · have hlt : i + 1 ≤ 30 := by omega
      simp only [autoCurveLoopAux, if_neg h30]
      cases autoCurveStep logF targetLoc targetScale (ops.lumLocScale s).1
          (ops.lumLocScale s).2 with
      | stopConverged => exact hi
      | applyGammaAct g => exact ih (i + 1) (ops.applyGamma s g) hlt
      | shiftBlackAct l t => exact ih (i + 1) (ops.shiftBlack s l t) hlt

theorem autoCurveLoopAux_fuel_irrel {S : Type} (logF : ℚ → ℚ) (ops : ToneOps S)
    (targetLoc targetScale : ℚ) :
    ∀ f1 f2 i s, i ≤ 30 → 31 ≤ f1 + i → 31 ≤ f2 + i →
      autoCurveLoopAux logF ops targetLoc targetScale f1 i s =
        autoCurveLoopAux logF ops targetLoc targetScale f2 i s := by
  intro f1
  induction f1 with
  | zero => intro f2 i s hi h1 h2; omega
  | succ a ih =>
    intro f2 i s hi h1 h2
    match f2 with
    | 0 => omega
    | b + 1 =>
      by_cases h30 : i = 30
      · simp [autoCurveLoopAux, h30]
      · simp only [autoCurveLoopAux, if_neg h30]
        cases autoCurveStep logF targetLoc targetScale (ops.lumLocScale s).1
            (ops.lumLocScale s).2 with
        | stopConverged => rfl
        | applyGammaAct g => exact ih b (i + 1) (ops.applyGamma s g) (by omega) (by omega) (by omega)
        | shiftBlackAct l t => exact ih b (i + 1) (ops.shiftBlack s l t) (by omega) (by omega) (by omega)

/-- Claim C7: the automatic curves adjustment runs at most 30 iterations (the
final counter never exceeds 30 and any fuel beyond the cap gives the same
result), and each iteration follows the claimed branch structure: location at
most 1.01 times target with scale below target applies the log ratio gamma
clamped to at most 1.5 and stops when that gamma is at most 1.01; otherwise a
location above 0.99 times target with scale below target shifts the black
point from the location to the target; otherwise the loop stops. -/
theorem enhanceToneCurve_auto_loop {S : Type} (logF : ℚ → ℚ) (ops : ToneOps S)
    (targetLoc targetScale : ℚ) (s : S) :
    (enhanceToneCurveAuto logF ops targetLoc targetScale s).2.1 ≤ 30 ∧
    (∀ fuel, 31 ≤ fuel →
      autoCurveLoopAux logF ops targetLoc targetScale fuel 0 s =
        enhanceToneCurveAuto logF ops targetLoc targetScale s) ∧
    (∀ loc scale : ℚ,
      (loc ≤ targetLoc * (101/100) → scale < targetScale →
        autoCurveStep logF targetLoc targetScale loc scale =
          (if min (logF ((targetLoc / targetScale) * scale) / logF targetLoc) (3/2) ≤ 101/100
            then ToneAction.stopConverged
            else ToneAction.applyGammaAct
              (min (logF ((targetLoc / targetScale) * scale) / logF targetLoc) (3/2)))) ∧
      (¬ (loc ≤ targetLoc * (101/100) ∧ scale < targetScale) →
        loc > targetLoc * (99/100) → scale < targetScale →
        autoCurveStep logF targetLoc targetScale loc scale =
          ToneAction.shiftBlackAct loc targetLoc) ∧
      (¬ (loc ≤ targetLoc * (101/100) ∧ scale < targetScale) →
        ¬ (loc > targetLoc * (99/100) ∧ scale < targetScale) →
        autoCurveStep logF targetLoc targetScale loc scale = ToneAction.stopConverged)) := by
  refine ⟨?_, ?_, ?_⟩
  · exact autoCurveLoopAux_counter_le logF ops targetLoc targetScale 31 0 s (by omega)
  · intro fuel hf
    exact autoCurveLoopAux_fuel_irrel logF ops targetLoc targetScale fuel 31 0 s
      (by omega) (by omega) (by omega)
  · intro loc scale
    refine ⟨?_, ?_, ?_⟩
    · intro hloc hscale
      simp only [autoCurveStep, if_pos (And.intro hloc hscale), clampGamma_eq_min]
    · intro hnot hloc hscale
      simp only [autoCurveStep, if_neg hnot, if_pos (And.intro hloc hscale)]
    · intro hnot1 hnot2
      simp only [autoCurveStep, if_neg hnot1, if_neg hnot2]

/-- Example tone operations over a rational state. -/
def exToneOps : ToneOps ℚ :=
  { lumLocScale := fun s => (s, 1/500)
    applyGamma := fun s g => s * g
    shiftBlack := fun s l t => s + t - l }

/-- Witness for the automatic curves theorem: with the identity as logarithm, a
ten percent location target and 0.4 percent scale target, the counter bound,
the fuel independence at fuel 40, and the first branch at location 1/20 and
scale 1/500 are concrete instances. -/
theorem enhanceToneCurve_auto_loop_witness :
    (enhanceToneCurveAuto (fun x => x) exToneOps (1/10) (1/250) 0).2.1 ≤ 30 ∧
    autoCurveLoopAux (fun x => x) exToneOps (1/10) (1/250) 40 0 0 =
      enhanceToneCurveAuto (fun x => x) exToneOps (1/10) (1/250) 0 ∧
    autoCurveStep (fun x => x) (1/10) (1/250) (1/20) (1/500) =
      (if min ((1/10 / (1/250)) * (1/500) / (1/10)) (3/2 : ℚ) ≤ 101/100
        then ToneAction.stopConverged
        else ToneAction.applyGammaAct (min ((1/10 / (1/250)) * (1/500) / (1/10)) (3/2))) :=
  ⟨(enhanceToneCurve_auto_loop (fun x => x) exToneOps (1/10) (1/250) 0).1,
   (enhanceToneCurve_auto_loop (fun x => x) exToneOps (1/10) (1/250) 0).2.1 40 (by norm_num),
   ((enhanceToneCurve_auto_loop (fun x => x) exToneOps (1/10) (1/250) 0).2.2 (1/20)
      (1/500)).1 (by norm_num) (by norm_num)⟩

/-! ## Color enhancement (cmdserve.go EnhanceColors) -/

/-- Parameters for RGB combination and enhancement after stacking. -/
structure ColorParams where
  neutSigmaLow : ℚ
  neutSigmaHigh : ℚ
  chromaGamma : ℚ
  chromaSigma : ℚ
  chromaBy : ℚ
  chromaFrom : ℚ
  chromaTo : ℚ
  rotBy : ℚ
  rotFrom : ℚ
  rotTo : ℚ
  scnr : ℚ
  deriving Repr, DecidableEq

/-- Modelled from the spec: the color space conversions and the per plane color
operations invoked by EnhanceColors are methods of FITSImage whose
implementations are not among the provided source files. They are kept as an
abstract record over the image type; the round trip property of the two
conversions is the spec round trip law of section 8. -/
structure ColorOps (Img : Type) where
  rgbToHSL : Img → Img
  hslToRGB : Img → Img
  lumLocScale : Img → ℚ × ℚ
  neutralizeBackground : Img → ℚ → ℚ → Img
  adjustChroma : Img → ℚ → ℚ → Img
  adjustChromaForHues : Img → ℚ → ℚ → ℚ → Img
  rotateColors : Img → ℚ → ℚ → ℚ → Img
  scnrGreen : Img → ℚ → Img

/-- Shallow embedding of EnhanceColors: the outer gate converts to HSL and back
whenever background neutralization is on (both sigmas nonnegative) or
chromaGamma differs from 1 or chromaBy differs from 0 (note: 0, not 1) or
rotBy or scnr differ from 0; inside, each operation runs under its own test,
with the chroma multiply applied only when chromaBy differs from 1. -/
def enhanceColors {Img : Type} (ops : ColorOps Img) (cP : ColorParams) (img : Img) : Img :=
  if (0 ≤ cP.neutSigmaLow ∧ 0 ≤ cP.neutSigmaHigh) ∨ cP.chromaGamma ≠ 1 ∨
      cP.chromaBy ≠ 0 ∨ cP.rotBy ≠ 0 ∨ cP.scnr ≠ 0 then
    let i1 := ops.rgbToHSL img
    let i2 := if 0 ≤ cP.neutSigmaLow ∧ 0 ≤ cP.neutSigmaHigh then
        let ls := ops.lumLocScale i1
        ops.neutralizeBackground i1 (ls.1 + ls.2 * cP.neutSigmaLow)
          (ls.1 + ls.2 * cP.neutSigmaHigh)
      else i1
    let i3 := if cP.chromaGamma ≠ 1 then
        let ls := ops.lumLocScale i2
        ops.adjustChroma i2 cP.chromaGamma (ls.1 + ls.2 * cP.chromaSigma)
      else i2
    let i4 := if cP.chromaBy ≠ 1 then
        ops.adjustChromaForHues i3 cP.chromaFrom cP.chromaTo cP.chromaBy
      else i3
    let i5 := if cP.rotBy ≠ 0 then ops.rotateColors i4 cP.rotFrom cP.rotTo cP.rotBy else i4
    let i6 := if cP.scnr ≠ 0 then ops.scnrGreen i5 cP.scnr else i5
    ops.hslToRGB i6
  else img

/-- Claim C8: with chromaBy equal to 1 and all other color parameters neutral
(at least one neutralization sigma negative, chromaGamma 1, rotBy 0, scnr 0),
EnhanceColors applies no color operation; because the outer gate tests chromaBy
against 0 rather than 1, the image still makes the HSL round trip, and since
the two conversions are mutually inverse the pixel data is unchanged. -/
theorem enhanceColors_chromaBy_one_noop {Img : Type} (ops : ColorOps Img)
    (cP : ColorParams) (img : Img)
    (hneut : cP.neutSigmaLow < 0 ∨ cP.neutSigmaHigh < 0)
    (hgamma : cP.chromaGamma = 1) (hby : cP.chromaBy = 1) (hrot : cP.rotBy = 0)
    (hscnr : cP.scnr = 0)
    (hround : ∀ x, ops.hslToRGB (ops.rgbToHSL x) = x) :
    enhanceColors ops cP img = ops.hslToRGB (ops.rgbToHSL img) ∧
    enhanceColors ops cP img = img := by
  have hgate : (0 ≤ cP.neutSigmaLow ∧ 0 ≤ cP.neutSigmaHigh) ∨ cP.chromaGamma ≠ 1 ∨
      cP.chromaBy ≠ 0 ∨ cP.rotBy ≠ 0 ∨ cP.scnr ≠ 0 := by
    refine Or.inr (Or.inr (Or.inl ?_))
    rw [hby]
    norm_num
  have hneutOff : ¬ (0 ≤ cP.neutSigmaLow ∧ 0 ≤ cP.neutSigmaHigh) := by
    rintro ⟨hl, hh⟩
    rcases hneut with h | h <;> linarith
  have hgammaOff : ¬ cP.chromaGamma ≠ 1 := by simp [hgamma]
  have hbyOff : ¬ cP.chromaBy ≠ 1 := by simp [hby]
  have hrotOff : ¬ cP.rotBy ≠ 0 := by simp [hrot]
  have hscnrOff : ¬ cP.scnr ≠ 0 := by simp [hscnr]
  have heq : enhanceColors ops cP img = ops.hslToRGB (ops.rgbToHSL img) := by
    simp only [enhanceColors, if_pos hgate, if_neg hneutOff, if_neg hgammaOff,
      if_neg hbyOff, if_neg hrotOff, if_neg hscnrOff]
  exact ⟨heq, heq.trans (hround img)⟩

/-- Neutral color parameters with chromaBy one. -/
def exNeutralColorParams : ColorParams :=
  { neutSigmaLow := -1, neutSigmaHigh := -1, chromaGamma := 1, chromaSigma := 1,
    chromaBy := 1, chromaFrom := 295, chromaTo := 40, rotBy := 0, rotFrom := 100,
    rotTo := 190, scnr := 0 }

/-- Example color operations over rational images: conversion multiplies by
two and its inverse halves, the other operations are arbitrary. -/
def exColorOps : ColorOps ℚ :=
  { rgbToHSL := fun x => 2 * x
    hslToRGB := fun x => x / 2
    lumLocScale := fun x => (x, 1)
    neutralizeBackground := fun x _ _ => x + 1
    adjustChroma := fun x _ _ => x + 2
    adjustChromaForHues := fun x _ _ _ => x + 3
    rotateColors := fun x _ _ _ => x + 4
    scnrGreen := fun x _ => x + 5 }

/-- Witness for the chromaBy one theorem at rational images with a doubling and
halving conversion pair. -/
theorem enhanceColors_chromaBy_one_noop_witness :
    enhanceColors exColorOps exNeutralColorParams 7 =
      exColorOps.hslToRGB (exColorOps.rgbToHSL 7) ∧
    enhanceColors exColorOps exNeutralColorParams 7 = 7 :=
  enhanceColors_chromaBy_one_noop exColorOps exNeutralColorParams 7
    (Or.inl (by norm_num [exNeutralColorParams])) rfl rfl rfl rfl
    (fun x => by norm_num [exColorOps])

/-! ## Reference frame selection (preprocess.go SelectReferenceFrame) -/

/-- Score of a candidate reference frame: number of detected stars divided by
the mean half flux radius, forced to zero when there are no stars or the half
flux radius is zero. The float quotient computed before the zero test is
overwritten in those cases, so only this value is observable. -/
def frameScore (l : FITSImage) : ℚ :=
  if l.stars.stars.length = 0 ∨ l.hfr = 0 then 0
  else (l.stars.stars.length : ℚ) / l.hfr

/-- Selection loop of SelectReferenceFrame: scan the slots, skip nil entries,
and replace the current best exactly when the score is strictly greater, so
earlier frames win ties. The accumulator starts at nil with score minus one. -/
def selRefLoop : List (Option FITSImage) → Option FITSImage × ℚ → Option FITSImage × ℚ
  | [], acc => acc
  | none :: rest, acc => selRefLoop rest acc
  | some lp :: rest, acc =>
      if frameScore lp > acc.2 then selRefLoop rest (some lp, frameScore lp)
      else selRefLoop rest acc

/-- Shallow embedding of SelectReferenceFrame. -/
def selectReferenceFrame (lights : List (Option FITSImage)) : Option FITSImage × ℚ :=
  selRefLoop lights (none, -1)

/-- Helper pairing an optional best frame with its score, minus one for none. -/
def scorePair (o : Option FITSImage) : Option FITSImage × ℚ :=
  match o with
  | none => (none, -1)
  | some m => (some m, frameScore m)

theorem scorePair_fst (o : Option FITSImage) : (scorePair o).1 = o := by
  cases o <;> rfl

theorem frameScore_nonneg (l : FITSImage) (h : 0 ≤ l.hfr) : 0 ≤ frameScore l := by
  rw [frameScore]
  split_ifs with hz
  · exact le_refl 0
  · push_neg at hz
    have hpos : 0 < l.hfr := lt_of_le_of_ne h (Ne.symm hz.2)
    positivity

theorem selRefLoop_argmax (xs : List (Option FITSImage)) :
    ∀ r : FITSImage,
      selRefLoop xs (some r, frameScore r) =
        scorePair ((xs.filterMap id).foldl
          (List.argAux fun b c => frameScore c < frameScore b) (some r)) := by
  induction xs with
  | nil => intro r; rfl
  | cons x rest ih =>
    intro r
    cases x with
    | none => exact ih r
    | some lp =>
      show (if frameScore lp > frameScore r then selRefLoop rest (some lp, frameScore lp)
            else selRefLoop rest (some r, frameScore r)) =
        scorePair ((lp :: rest.filterMap id).foldl
          (List.argAux fun b c => frameScore c < frameScore b) (some r))
      rw [List.foldl_cons]
      by_cases h : frameScore r < frameScore lp
      · have ha : List.argAux (fun b c => frameScore c < frameScore b) (some r) lp =
            some lp := if_pos h
        rw [if_pos h, ha]
        exact ih lp
      · have ha : List.argAux (fun b c => frameScore c < frameScore b) (some r) lp =
            some r := if_neg h
        rw [if_neg h, ha]
        exact ih r

theorem selRef_argmax (lights : List (Option FITSImage))
    (h : ∀ lp ∈ lights.filterMap id, 0 ≤ lp.hfr) :
    (selectReferenceFrame lights).1 = List.argmax frameScore (lights.filterMap id) := by
  induction lights with
  | nil => rfl
  | cons x rest ih =>
    cases x with
    | none =>
      exact ih (fun lp hlp => h lp hlp)
    | some lp =>
      have hlp : lp ∈ (some lp :: rest).filterMap (id : Option FITSImage → Option FITSImage) :=
        List.mem_cons_self lp (rest.filterMap id)
      have hpos : (-1 : ℚ) < frameScore lp :=
        lt_of_lt_of_le (by norm_num) (frameScore_nonneg lp (h lp hlp))
      show (selRefLoop (some lp :: rest) (none, -1)).1 =
        List.argmax frameScore (lp :: rest.filterMap id)
      have hstep : selRefLoop (some lp :: rest) (none, -1) =
          selRefLoop rest (some lp, frameScore lp) := by
        show (if frameScore lp > (-1 : ℚ) then selRefLoop rest (some lp, frameScore lp)
              else selRefLoop rest (none, -1)) = selRefLoop rest (some lp, frameScore lp)
        rw [if_pos hpos]
      rw [hstep, selRefLoop_argmax rest lp, scorePair_fst]
      rfl

/-- Claim C9: SelectReferenceFrame returns nil exactly when every slot is nil;
otherwise it returns the earliest non nil frame attaining the maximum score,
where the score is the number of detected stars divided by the half flux
radius, and zero stars or zero half flux radius scores zero. Half flux radii
are nonnegative by construction, which the hypothesis records. -/
theorem selectReferenceFrame_earliest_max (lights : List (Option FITSImage))
    (h : ∀ lp ∈ lights.filterMap id, 0 ≤ lp.hfr) :
    ((selectReferenceFrame lights).1 = none ↔ ∀ l ∈ lights, l = none) ∧
    (∀ m, (selectReferenceFrame lights).1 = some m →
      m ∈ lights.filterMap id ∧
      (∀ a ∈ lights.filterMap id, frameScore a ≤ frameScore m) ∧
      (∀ a ∈ lights.filterMap id, frameScore m ≤ frameScore a →
        (lights.filterMap id).indexOf m ≤ (lights.filterMap id).indexOf a)) := by
  have hb := selRef_argmax lights h
  constructor
  · rw [hb, List.argmax_eq_none]
    simp
  · intro m hm
    rw [hb] at hm
    have hc := List.argmax_eq_some_iff.mp hm
    exact ⟨hc.1, hc.2.1, hc.2.2⟩

/-- Witness for the reference selection theorem: among a nil slot, a two star
frame and a three star frame of equal half flux radius, the three star frame
is selected and satisfies the earliest maximum properties. -/
theorem selectReferenceFrame_earliest_max_witness :
    ((selectReferenceFrame [none, some exLight2, some exRefFrame]).1 = none ↔
      ∀ l ∈ [none, some exLight2, some exRefFrame], l = none) ∧
    (∀ m, (selectReferenceFrame [none, some exLight2, some exRefFrame]).1 = some m →
      m ∈ [none, some exLight2, some exRefFrame].filterMap id ∧
      (∀ a ∈ [none, some exLight2, some exRefFrame].filterMap id,
        frameScore a ≤ frameScore m) ∧
      (∀ a ∈ [none, some exLight2, some exRefFrame].filterMap id,
        frameScore m ≤ frameScore a →
        ([none, some exLight2, some exRefFrame].filterMap id).indexOf m ≤
          ([none, some exLight2, some exRefFrame].filterMap id).indexOf a)) :=
  selectReferenceFrame_earliest_max [none, some exLight2, some exRefFrame] (by
    intro lp hlp
    simp only [List.filterMap_cons, id, List.mem_cons] at hlp
    rcases hlp with h1 | h1 | h1
    · rw [h1]; norm_num [exLight2]
    · rw [h1]; norm_num [exRefFrame, exLight2]
    · simp at h1)

/-! ## JPEG export (writejpg.go WriteJPG) -/

/-- Quantization of one channel value in WriteJPG: the channel is multiplied by
255, offset by one half, and converted to uint8; for nonnegative arguments the
Go conversion truncates, which is the floor. -/
def jpgQuant (r : ℚ) : ℤ := ⌊r * 255 + 1/2⌋

/-- Channel access in WriteJPG: none stands for a NaN float, which the code
replaces by zero before quantization. -/
def jpgChannel (v : Option ℚ) : ℤ := jpgQuant (v.getD 0)

/-- One output pixel handed to the JPEG encoder: four 8 bit channels. -/
structure JPGPixel where
  r : ℤ
  g : ℤ
  b : ℤ
  a : ℤ
  deriving Repr, DecidableEq

/-- Pixel conversion loop of WriteJPG: for every row y and column x the three
channels are read from the planar buffer at stride width times height, NaN
values become zero, each channel is quantized, and alpha is set to 255. -/
def writeJPGPixels (width height : ℕ) (data : ℕ → Option ℚ) : List JPGPixel :=
  ((List.range height).map (fun y =>
    (List.range width).map (fun x =>
      JPGPixel.mk (jpgChannel (data (y * width + x)))
        (jpgChannel (data (y * width + x + width * height)))
        (jpgChannel (data (y * width + x + 2 * (width * height)))) 255))).flatten

theorem jpgQuant_bounds (r : ℚ) (h0 : 0 ≤ r) (h1 : r ≤ 1) :
    0 ≤ jpgQuant r ∧ jpgQuant r ≤ 255 := by
  constructor
  · rw [jpgQuant]
    exact Int.le_floor.mpr (by push_cast; linarith)
  · rw [jpgQuant]
    have hlt : ⌊(r * 255 + 1/2 : ℚ)⌋ < 256 := Int.floor_lt.mpr (by push_cast; linarith)
    omega

theorem jpgChannel_bounds (data : ℕ → Option ℚ)
    (hval : ∀ i v, data i = some v → 0 ≤ v ∧ v ≤ 1) (i : ℕ) :
    0 ≤ jpgChannel (data i) ∧ jpgChannel (data i) ≤ 255 := by
  cases hd : data i with
  | none =>
    rw [jpgChannel]
    exact jpgQuant_bounds 0 (le_refl 0) (by norm_num)
  | some v =>
    rw [jpgChannel]
    exact jpgQuant_bounds v (hval i v hd).1 (hval i v hd).2

/-- Claim C10: for planar RGB data whose finite values lie in the unit
interval, every pixel handed to the encoder has alpha 255 and all channels in
the 8 bit range; a NaN channel value becomes zero; a finite channel value v
becomes the floor of v times 255 plus one half; and the pixel for coordinates
x y is built from the three planar channel values at stride width times
height. NaN values therefore never reach the encoder, whose input consists of
integers only. -/
theorem writeJPG_pixels (width height : ℕ) (data : ℕ → Option ℚ)
    (hval : ∀ i v, data i = some v → 0 ≤ v ∧ v ≤ 1) :
    (∀ pix ∈ writeJPGPixels width height data,
      pix.a = 255 ∧ 0 ≤ pix.r ∧ pix.r ≤ 255 ∧ 0 ≤ pix.g ∧ pix.g ≤ 255 ∧
        0 ≤ pix.b ∧ pix.b ≤ 255) ∧
    (∀ i, data i = none → jpgChannel (data i) = 0) ∧
    (∀ i v, data i = some v → jpgChannel (data i) = ⌊v * 255 + 1/2⌋) ∧
    (∀ x y, x < width → y < height →
      JPGPixel.mk (jpgChannel (data (y * width + x)))
        (jpgChannel (data (y * width + x + width * height)))
        (jpgChannel (data (y * width + x + 2 * (width * height)))) 255 ∈
        writeJPGPixels width height data) := by
  refine ⟨?_, ?_, ?_, ?_⟩
  · intro pix hpix
    rw [writeJPGPixels, List.mem_flatten] at hpix
    obtain ⟨row, hrow, hpixrow⟩ := hpix
    rw [List.mem_map] at hrow
    obtain ⟨y, _, rfl⟩ := hrow
    rw [List.mem_map] at hpixrow
    obtain ⟨x, _, rfl⟩ := hpixrow
    exact ⟨rfl, (jpgChannel_bounds data hval _).1, (jpgChannel_bounds data hval _).2,
      (jpgChannel_bounds data hval _).1, (jpgChannel_bounds data hval _).2,
      (jpgChannel_bounds data hval _).1, (jpgChannel_bounds data hval _).2⟩
  · intro i hi
    rw [jpgChannel, hi]
    show jpgQuant 0 = 0
    rw [jpgQuant]
    rw [Int.floor_eq_zero_iff]
    constructor <;> norm_num
  · intro i v hv
    rw [jpgChannel, hv]
    rfl
  · intro x y hx hy
    rw [writeJPGPixels, List.mem_flatten]
    refine ⟨(List.range width).map (fun x =>
      JPGPixel.mk (jpgChannel (data (y * width + x)))
        (jpgChannel (data (y * width + x + width * height)))
        (jpgChannel (data (y * width + x + 2 * (width * height)))) 255), ?_, ?_⟩
    · rw [List.mem_map]
      exact ⟨y, List.mem_range.mpr hy, rfl⟩
    · rw [List.mem_map]
      exact ⟨x, List.mem_range.mpr hx, rfl⟩

/-- Example planar buffer over a 2 by 1 image: the first red value is NaN, the
others are one half. -/
def exJPGData : ℕ → Option ℚ := fun i => if i = 0 then none else some (1/2)

/-- Witness for the WriteJPG theorem on the 2 by 1 example buffer. -/
theorem writeJPG_pixels_witness :
    (∀ pix ∈ writeJPGPixels 2 1 exJPGData,
      pix.a = 255 ∧ 0 ≤ pix.r ∧ pix.r ≤ 255 ∧ 0 ≤ pix.g ∧ pix.g ≤ 255 ∧
        0 ≤ pix.b ∧ pix.b ≤ 255) ∧
    (∀ i, exJPGData i = none → jpgChannel (exJPGData i) = 0) ∧
    (∀ i v, exJPGData i = some v → jpgChannel (exJPGData i) = ⌊v * 255 + 1/2⌋) ∧
    (∀ x y, x < 2 → y < 1 →
      JPGPixel.mk (jpgChannel (exJPGData (y * 2 + x)))
        (jpgChannel (exJPGData (y * 2 + x + 2 * 1)))
        (jpgChannel (exJPGData (y * 2 + x + 2 * (2 * 1)))) 255 ∈
        writeJPGPixels 2 1 exJPGData) :=
  writeJPG_pixels 2 1 exJPGData (by
    intro i v hv
    rw [exJPGData] at hv
    by_cases hi : i = 0
    · rw [if_pos hi] at hv
      cases hv
    · rw [if_neg hi] at hv
      have : v = 1/2 := (Option.some.injEq _ _).mp hv.symm
      rw [this]
      norm_num)

end Nightlight
